import Mathlib

/-!
Shallow embedding of `src/src/cc/AsyncComm/ConnectionManager.cc` (Hypertable).

The connection manager keeps a registry (`conn_map`) of per-peer
`ConnectionState` records, a retry heap (`retry_queue`) of records awaiting a
reconnect, and a retry worker thread.  Records are shared-ownership objects
(`ConnectionStatePtr`): a record erased from the registry may still be
referenced from the retry heap.  We model this by keeping every record in a
store `records : List (Nat × ConnectionState)` indexed by an allocation id;
the registry and the heap refer to records by id.

The comm layer and `System::rand32` are external: their results are passed in
as oracle arguments (`cr` for a connect result, `closeResult` for
`close_socket`, `r1`/`r2` for the two `rand32()` calls).  Calls into the comm
layer, condition-variable signals and log lines are recorded in a `Trace`
list.  Timestamps (`boost::xtime`) are modelled as integer milliseconds.
-/

namespace ConnMgr

/-- IPv4 socket address: `sockaddr_in` restricted to the fields the manager
reads (`sin_addr`, `sin_port`). -/
structure SockAddrIn where
  sin_addr : Nat
  sin_port : Nat
deriving DecidableEq

/-- The zero-filled `sockaddr_in` produced by `memset(&local_addr, 0, ...)`. -/
def zeroAddr : SockAddrIn := ⟨0, 0⟩

namespace ErrCode

/-- `Error::OK`. -/
def OK : Int := 0

/-- `Error::COMM_ALREADY_CONNECTED` (a fixed code distinct from `OK`). -/
def COMM_ALREADY_CONNECTED : Int := 65546

end ErrCode

/-- Comm-layer event types the manager can receive. `message` stands for every
type other than the three the manager inspects. -/
inductive EventType
  | connection_established
  | disconnect
  | error_event
  | message
deriving DecidableEq

/-- A comm-layer event: type plus originating address. -/
structure Event where
  type : EventType
  addr : SockAddrIn
deriving DecidableEq

/-- Per-peer connection record (`ConnectionState` in the source).  The mutex
and condition variable are not data; condition signals appear in the trace. -/
structure ConnectionState where
  addr : SockAddrIn
  local_addr : SockAddrIn
  timeout_ms : Nat
  service_name : String
  handler : Option Nat
  connected : Bool
  next_retry : Int
deriving DecidableEq

/-- Observable effects: comm-layer calls, condition signals, dispatches to the
application handler, and the unknown-address warning. -/
inductive Trace
  | connect (id : Nat) (addr : SockAddrIn)
  | connectBound (id : Nat) (addr local_addr : SockAddrIn)
  | closeSocket (addr : SockAddrIn)
  | notifyAll (id : Nat)
  | notifyRetry
  | toHandler (h : Nat) (e : Event)
  | logWarn
deriving DecidableEq

/-- Which record id a trace entry issues a comm-layer `connect` for, if any. -/
def connectOf : Trace → Option Nat
  | Trace.connect i _ => some i
  | Trace.connectBound i _ _ => some i
  | _ => none

/-- Manager state: record store, registry, retry heap (as a bag of record
ids), allocation counter and shutdown flag. -/
structure ManagerState where
  records : List (Nat × ConnectionState)
  conn_map : List (SockAddrIn × Nat)
  retry_queue : List Nat
  next_id : Nat
  shutdown : Bool
deriving DecidableEq

/-- Look up a record by id in the store. -/
def lookupRec : List (Nat × ConnectionState) → Nat → Option ConnectionState
  | [], _ => none
  | (j, c) :: rest, i => if i = j then some c else lookupRec rest i

/-- Replace the record stored under id `i` (no-op when absent). -/
def setRec : List (Nat × ConnectionState) → Nat → ConnectionState →
    List (Nat × ConnectionState)
  | [], _, _ => []
  | (j, c) :: rest, i, c2 =>
      if i = j then (j, c2) :: rest else (j, c) :: setRec rest i c2

/-- Registry lookup (`conn_map.find`). -/
def lookupMap : List (SockAddrIn × Nat) → SockAddrIn → Option Nat
  | [], _ => none
  | (a, i) :: rest, addr => if addr = a then some i else lookupMap rest addr

/-- Registry erase (`conn_map.erase(iter)`): removes the entry `find` found. -/
def eraseMap : List (SockAddrIn × Nat) → SockAddrIn → List (SockAddrIn × Nat)
  | [], _ => []
  | (a, i) :: rest, addr =>
      if addr = a then rest else (a, i) :: eraseMap rest addr

/-- Record fetched by id, with a dummy default for the (never well-formed)
missing case. -/
def getRec (recs : List (Nat × ConnectionState)) (i : Nat) : ConnectionState :=
  (lookupRec recs i).getD ⟨zeroAddr, zeroAddr, 0, "", none, false, 0⟩

namespace ConnectionManager

/-- `ConnectionManager::send_connect_request`, acting on one record `cs`
(stored under id `id`) and the retry queue.  `cr` is the comm layer's connect
result, `now` the current time, `r1`/`r2` the two `System::rand32()` draws. -/
def send_connect_request (cs : ConnectionState) (id : Nat) (queue : List Nat)
    (cr now : Int) (r1 r2 : Nat) :
    ConnectionState × List Nat × List Trace :=
  let tr0 : List Trace :=
    if cs.local_addr.sin_port ≠ 0 then
      [Trace.connectBound id cs.addr cs.local_addr]
    else
      [Trace.connect id cs.addr]
  if cr = ErrCode.COMM_ALREADY_CONNECTED then
    ({ cs with connected := true }, queue, tr0 ++ [Trace.notifyAll id])
  else if cr ≠ ErrCode.OK then
    -- reschedule: next_retry = now + timeout_ms, then ± (rand32() % 2000)
    let base : Int := now + (cs.timeout_ms : Int)
    let milli_adjust : Int := ((r1 % 2000 : Nat) : Int)
    let nr : Int := if r2 % 2 = 1 then base - milli_adjust else base + milli_adjust
    ({ cs with next_retry := nr }, queue ++ [id], tr0 ++ [Trace.notifyRetry])
  else
    (cs, queue, tr0)

/-- `ConnectionManager::add` (the overload with an explicit `local_addr`).
Creates a record with `connected = false`, `next_retry = now`, registers it,
then synchronously calls `send_connect_request` on it. -/
def add_with_local (s : ManagerState) (addr local_addr : SockAddrIn)
    (timeout_ms : Nat) (service_name : Option String) (handler : Option Nat)
    (now cr : Int) (r1 r2 : Nat) : ManagerState × List Trace :=
  if (lookupMap s.conn_map addr).isSome then (s, [])
  else
    let cs : ConnectionState :=
      { addr := addr, local_addr := local_addr, timeout_ms := timeout_ms,
        service_name := service_name.getD "", handler := handler,
        connected := false, next_retry := now }
    let id := s.next_id
    let r := send_connect_request cs id s.retry_queue cr now r1 r2
    ({ s with records := (id, r.1) :: s.records,
              conn_map := (addr, id) :: s.conn_map,
              retry_queue := r.2.1,
              next_id := id + 1 }, r.2.2)

/-- `ConnectionManager::add` (the overload without a `local_addr`): the
record's `local_addr` is zero-filled by `memset`. -/
def add (s : ManagerState) (addr : SockAddrIn) (timeout_ms : Nat)
    (service_name : Option String) (handler : Option Nat)
    (now cr : Int) (r1 r2 : Nat) : ManagerState × List Trace :=
  add_with_local s addr zeroAddr timeout_ms service_name handler now cr r1 r2

/-- `ConnectionManager::remove`.  `closeResult` is the comm layer's
`close_socket` status (consulted only when the record was connected).
Returns (state, status, trace). -/
def remove (s : ManagerState) (addr : SockAddrIn) (closeResult : Int) :
    ManagerState × Int × List Trace :=
  match lookupMap s.conn_map addr with
  | none => (s, ErrCode.OK, [])
  | some i =>
      let cs := getRec s.records i
      if cs.connected then
        ({ s with conn_map := eraseMap s.conn_map addr },
         closeResult, [Trace.closeSocket addr])
      else
        ({ s with conn_map := eraseMap s.conn_map addr,
                  records := setRec s.records i { cs with connected := true } },
         ErrCode.OK, [])

/-- `ConnectionManager::handle`, the dispatch-handler callback. -/
def handle (s : ManagerState) (e : Event) (now : Int) :
    ManagerState × List Trace :=
  match lookupMap s.conn_map e.addr with
  | none => (s, [Trace.logWarn])
  | some i =>
      let cs := getRec s.records i
      let step : ConnectionState × List Nat × List Trace :=
        if e.type = EventType.connection_established then
          ({ cs with connected := true }, s.retry_queue, [Trace.notifyAll i])
        else if e.type = EventType.error_event ∨ e.type = EventType.disconnect then
          ({ cs with connected := false,
                     next_retry := now + (cs.timeout_ms : Int) },
           s.retry_queue ++ [i], [Trace.notifyRetry])
        else
          (cs, s.retry_queue, [])
      let tr :=
        match cs.handler with
        | some h => step.2.2 ++ [Trace.toHandler h e]
        | none => step.2.2
      ({ s with records := setRec s.records i step.1,
                retry_queue := step.2.1 }, tr)

/-- Head of the retry heap: an id in the queue whose record has minimal
`next_retry` (the `std::priority_queue` top). -/
def retry_top (s : ManagerState) : Option Nat :=
  match s.retry_queue with
  | [] => none
  | i :: is =>
      some (is.foldl
        (fun b j =>
          if (getRec s.records j).next_retry < (getRec s.records b).next_retry
          then j else b) i)

/-- Outcome of one iteration of the retry-worker loop. -/
inductive WorkerAct
  | exited
  | waited
  | discarded (id : Nat)
  | attempted (id : Nat)
deriving DecidableEq

/-- One iteration of the retry worker (`ConnectionManager::operator()`). -/
def worker_step (s : ManagerState) (now cr : Int) (r1 r2 : Nat) :
    ManagerState × List Trace × WorkerAct :=
  if s.shutdown then (s, [], WorkerAct.exited)
  else
    match retry_top s with
    | none => (s, [], WorkerAct.waited)
    | some t =>
        let cs := getRec s.records t
        if cs.connected then
          ({ s with retry_queue := s.retry_queue.erase t }, [],
           WorkerAct.discarded t)
        else if cs.next_retry ≤ now then
          let r := send_connect_request cs t (s.retry_queue.erase t) cr now r1 r2
          ({ s with records := setRec s.records t r.1, retry_queue := r.2.1 },
           r.2.2, WorkerAct.attempted t)
        else
          (s, [], WorkerAct.waited)

/-- One observation made by `wait_for_connection`'s condition loop: the timed
wait either expired, or was signalled and re-read `connected`. -/
inductive WakeResult
  | timeout
  | notified (connected : Bool)
deriving DecidableEq

/-- The `while (!connected) { timed_wait }` loop of `wait_for_connection`:
`none` means the oracle ran out of wake events while still blocked. -/
def wait_loop : Bool → List WakeResult → Option Bool
  | true, _ => some true
  | false, [] => none
  | false, WakeResult.timeout :: _ => some false
  | false, WakeResult.notified c :: rest => wait_loop c rest

/-- `ConnectionManager::wait_for_connection`. -/
def wait_for_connection (s : ManagerState) (addr : SockAddrIn)
    (wakes : List WakeResult) : Option Bool :=
  match lookupMap s.conn_map addr with
  | none => some false
  | some i => wait_loop (getRec s.records i).connected wakes

end ConnectionManager

/-- An API-level operation on the manager, with its oracle inputs. -/
inductive Op
  | addOp (addr : SockAddrIn) (timeout_ms : Nat) (svc : Option String)
      (h : Option Nat) (now cr : Int) (r1 r2 : Nat)
  | addLocalOp (addr local_addr : SockAddrIn) (timeout_ms : Nat)
      (svc : Option String) (h : Option Nat) (now cr : Int) (r1 r2 : Nat)
  | removeOp (addr : SockAddrIn) (closeResult : Int)
  | handleOp (e : Event) (now : Int)
  | workerOp (now cr : Int) (r1 r2 : Nat)
deriving DecidableEq

/-- Apply one operation, returning the new state and its trace. -/
def applyOp (s : ManagerState) : Op → ManagerState × List Trace
  | Op.addOp addr t svc h now cr r1 r2 =>
      ConnectionManager.add s addr t svc h now cr r1 r2
  | Op.addLocalOp addr la t svc h now cr r1 r2 =>
      ConnectionManager.add_with_local s addr la t svc h now cr r1 r2
  | Op.removeOp addr closeResult =>
      let r := ConnectionManager.remove s addr closeResult
      (r.1, r.2.2)
  | Op.handleOp e now => ConnectionManager.handle s e now
  | Op.workerOp now cr r1 r2 =>
      let r := ConnectionManager.worker_step s now cr r1 r2
      (r.1, r.2.1)

/-- Run a sequence of operations, concatenating the traces. -/
def runOps (s : ManagerState) : List Op → ManagerState × List Trace
  | [] => (s, [])
  | op :: ops =>
      let r := applyOp s op
      let rest := runOps r.1 ops
      (rest.1, r.2 ++ rest.2)

/-- Well-formedness: every stored id is below the allocation counter, the
registry and the heap only point at stored records, and no record is
registered under two addresses. -/
def wf (s : ManagerState) : Prop :=
  (∀ p ∈ s.records, p.1 < s.next_id) ∧
  (∀ p ∈ s.conn_map, (lookupRec s.records p.2).isSome = true) ∧
  (∀ i ∈ s.retry_queue, (lookupRec s.records i).isSome = true) ∧
  s.conn_map.Pairwise (fun p q => p.2 ≠ q.2)

instance (s : ManagerState) : Decidable (wf s) := by
  unfold wf; infer_instance

/-- Record `r` is poisoned: still stored with `connected = true`, but no
longer registered under any address. -/
def poisoned (s : ManagerState) (r : Nat) : Prop :=
  Option.map ConnectionState.connected (lookupRec s.records r) = some true ∧
  ∀ p ∈ s.conn_map, p.2 ≠ r

instance (s : ManagerState) (r : Nat) : Decidable (poisoned s r) := by
  unfold poisoned; infer_instance

/-- No trace entry issues a comm-layer connect on behalf of record `r`. -/
def connectFree (r : Nat) (tr : List Trace) : Prop :=
  ∀ t ∈ tr, connectOf t ≠ some r

instance (r : Nat) (tr : List Trace) : Decidable (connectFree r tr) := by
  unfold connectFree; infer_instance

/-- Number of registry entries for an address. -/
def countAddr (m : List (SockAddrIn × Nat)) (addr : SockAddrIn) : Nat :=
  (m.filter (fun p => p.1 == addr)).length

/-- Number of comm-layer connect calls in a trace. -/
def connectCount (tr : List Trace) : Nat :=
  (tr.filter (fun t => (connectOf t).isSome)).length

/-- Whether a trace contains a `notify_all` on record `r`'s condition. -/
def notifyMem (r : Nat) (tr : List Trace) : Prop :=
  Trace.notifyAll r ∈ tr

instance (r : Nat) (tr : List Trace) : Decidable (notifyMem r tr) := by
  unfold notifyMem; infer_instance

/-- `connected` flag of stored record `r` (false when unstored). -/
def recConnected (s : ManagerState) (r : Nat) : Bool :=
  match lookupRec s.records r with
  | some c => c.connected
  | none => false

/-- Trace of chaining an event to the record's application handler
(`if (conn_state->handler) conn_state->handler->handle(event_ptr)`). -/
def handlerTrace : Option Nat → Event → List Trace
  | some h, e => [Trace.toHandler h e]
  | none, _ => []

/-- The fresh record `add` creates before its first connect attempt. -/
def newRecord (addr la : SockAddrIn) (t : Nat) (svc : Option String)
    (h : Option Nat) (now : Int) : ConnectionState :=
  { addr := addr, local_addr := la, timeout_ms := t,
    service_name := svc.getD "", handler := h, connected := false,
    next_retry := now }

/-- A record with its `connected` flag raised. -/
def connectedRecord (c : ConnectionState) : ConnectionState :=
  { c with connected := true }

/-- A record after the failure transition of the event handler:
`connected = false`, `next_retry = now + timeout_ms`. -/
def failRecord (c : ConnectionState) (now : Int) : ConnectionState :=
  { c with connected := false, next_retry := now + (c.timeout_ms : Int) }

/-- The exact situations in which one operation performs a
connected-with-notification transition on record `r`: an already-connected
synchronous connect on `r`'s behalf (from `add` or the retry worker), or a
`CONNECTION_ESTABLISHED` event handled for `r`'s address. -/
def estNotify (s : ManagerState) (op : Op) (r : Nat) : Prop :=
  match op with
  | Op.addOp addr _ _ _ _ cr _ _ =>
      lookupMap s.conn_map addr = none ∧ r = s.next_id ∧
      cr = ErrCode.COMM_ALREADY_CONNECTED
  | Op.addLocalOp addr _ _ _ _ _ cr _ _ =>
      lookupMap s.conn_map addr = none ∧ r = s.next_id ∧
      cr = ErrCode.COMM_ALREADY_CONNECTED
  | Op.removeOp _ _ => False
  | Op.handleOp e _ =>
      lookupMap s.conn_map e.addr = some r ∧
      e.type = EventType.connection_established
  | Op.workerOp now cr _ _ =>
      s.shutdown = false ∧ ConnectionManager.retry_top s = some r ∧
      (getRec s.records r).connected = false ∧
      (getRec s.records r).next_retry ≤ now ∧
      cr = ErrCode.COMM_ALREADY_CONNECTED

instance (s : ManagerState) (op : Op) (r : Nat) :
    Decidable (estNotify s op r) := by
  unfold estNotify
  cases op <;> infer_instance

/-! Concrete example states used by the witness theorems. -/

/-- A sample endpoint (1.2.3.4:8000). -/
def addrEx : SockAddrIn := ⟨16909060, 8000⟩

/-- A sample disconnected record for `addrEx`. -/
def csEx : ConnectionState := ⟨addrEx, zeroAddr, 5000, "svc", none, false, 0⟩

/-- A sample connected record for `addrEx`. -/
def csConn : ConnectionState := ⟨addrEx, zeroAddr, 5000, "svc", none, true, 0⟩

/-- The empty manager state. -/
def sEmpty : ManagerState := ⟨[], [], [], 0, false⟩

/-- Manager holding the disconnected record. -/
def sEx : ManagerState := ⟨[(0, csEx)], [(addrEx, 0)], [], 1, false⟩

/-- Manager holding the connected record. -/
def sConn : ManagerState := ⟨[(0, csConn)], [(addrEx, 0)], [], 1, false⟩

/-- Manager holding the disconnected record with a pending retry entry. -/
def sQueue : ManagerState := ⟨[(0, csEx)], [(addrEx, 0)], [0], 1, false⟩

/-- Manager holding a poisoned record still referenced by the heap. -/
def sPoisoned : ManagerState := ⟨[(0, csConn)], [], [0], 1, false⟩

namespace ConnectionManager

/-- The connect call `send_connect_request` issues for a record. -/
def connectTrace (cs : ConnectionState) (id : Nat) : Trace :=
  if cs.local_addr.sin_port ≠ 0 then Trace.connectBound id cs.addr cs.local_addr
  else Trace.connect id cs.addr

/-- The jittered retry time computed on the synchronous failure path. -/
def jitteredRetry (cs : ConnectionState) (now : Int) (r1 r2 : Nat) : Int :=
  if r2 % 2 = 1 then now + (cs.timeout_ms : Int) - ((r1 % 2000 : Nat) : Int)
  else now + (cs.timeout_ms : Int) + ((r1 % 2000 : Nat) : Int)

lemma scr_already_connected (cs : ConnectionState) (id : Nat) (queue : List Nat)
    (now : Int) (r1 r2 : Nat) :
    send_connect_request cs id queue ErrCode.COMM_ALREADY_CONNECTED now r1 r2 =
      ({ cs with connected := true }, queue,
       [connectTrace cs id, Trace.notifyAll id]) := by
  simp [send_connect_request, connectTrace]
  split <;> simp

lemma scr_ok (cs : ConnectionState) (id : Nat) (queue : List Nat)
    (now : Int) (r1 r2 : Nat) :
    send_connect_request cs id queue ErrCode.OK now r1 r2 =
      (cs, queue, [connectTrace cs id]) := by
  simp [send_connect_request, connectTrace, ErrCode.OK, ErrCode.COMM_ALREADY_CONNECTED]
  split <;> simp

lemma scr_fail (cs : ConnectionState) (id : Nat) (queue : List Nat)
    (cr now : Int) (r1 r2 : Nat) (hok : cr ≠ ErrCode.OK)
    (hac : cr ≠ ErrCode.COMM_ALREADY_CONNECTED) :
    send_connect_request cs id queue cr now r1 r2 =
      ({ cs with next_retry := jitteredRetry cs now r1 r2 }, queue ++ [id],
       [connectTrace cs id, Trace.notifyRetry]) := by
  simp [send_connect_request, connectTrace, jitteredRetry, hok, hac]
  split <;> simp

end ConnectionManager

section StoreLemmas

lemma lookupRec_mem {recs : List (Nat × ConnectionState)} {i : Nat}
    {c : ConnectionState} (h : lookupRec recs i = some c) : (i, c) ∈ recs := by
  induction recs with
  | nil => simp [lookupRec] at h
  | cons p rest ih =>
      obtain ⟨j, c0⟩ := p
      by_cases hij : i = j
      · subst hij
        simp [lookupRec] at h
        simp [h]
      · simp [lookupRec, hij] at h
        exact List.mem_cons_of_mem _ (ih h)

lemma lookupRec_setRec_self {recs : List (Nat × ConnectionState)} {i : Nat}
    {c : ConnectionState} (c2 : ConnectionState)
    (h : lookupRec recs i = some c) :
    lookupRec (setRec recs i c2) i = some c2 := by
  induction recs with
  | nil => simp [lookupRec] at h
  | cons p rest ih =>
      obtain ⟨j, c0⟩ := p
      by_cases hij : i = j
      · subst hij
        simp [setRec, lookupRec]
      · simp [lookupRec, hij] at h
        simp [setRec, hij, lookupRec, ih h]

lemma lookupRec_setRec_ne {recs : List (Nat × ConnectionState)} {j : Nat}
    (c2 : ConnectionState) {i : Nat} (h : i ≠ j) :
    lookupRec (setRec recs j c2) i = lookupRec recs i := by
  induction recs with
  | nil => simp [setRec]
  | cons p rest ih =>
      obtain ⟨k, c0⟩ := p
      by_cases hjk : j = k
      · subst hjk
        simp [setRec, lookupRec, h]
      · by_cases hik : i = k
        · subst hik
          simp [setRec, hjk, lookupRec]
        · simp [setRec, hjk, lookupRec, hik, ih]

lemma isSome_lookupRec_setRec (recs : List (Nat × ConnectionState)) (j : Nat)
    (c2 : ConnectionState) (i : Nat) :
    (lookupRec (setRec recs j c2) i).isSome = (lookupRec recs i).isSome := by
  induction recs with
  | nil => simp [setRec]
  | cons p rest ih =>
      obtain ⟨k, c0⟩ := p
      by_cases hjk : j = k
      · subst hjk
        simp only [setRec, if_pos rfl, lookupRec]
        split <;> simp
      · simp only [setRec, if_neg hjk, lookupRec]
        split <;> simp [ih]

lemma keys_setRec (recs : List (Nat × ConnectionState)) (i : Nat)
    (c2 : ConnectionState) :
    (setRec recs i c2).map Prod.fst = recs.map Prod.fst := by
  induction recs with
  | nil => simp [setRec]
  | cons p rest ih =>
      obtain ⟨j, c0⟩ := p
      by_cases hij : i = j
      · simp [setRec, hij]
      · simp [setRec, hij, ih]

lemma mem_eraseMap {m : List (SockAddrIn × Nat)} {addr : SockAddrIn}
    {p : SockAddrIn × Nat} (h : p ∈ eraseMap m addr) : p ∈ m := by
  induction m with
  | nil => simp [eraseMap] at h
  | cons q rest ih =>
      obtain ⟨a, i⟩ := q
      by_cases ha : addr = a
      · simp [eraseMap, ha] at h
        exact List.mem_cons_of_mem _ h
      · simp [eraseMap, ha] at h
        rcases h with h | h
        · simp [h]
        · exact List.mem_cons_of_mem _ (ih h)

lemma eraseMap_sublist (m : List (SockAddrIn × Nat)) (addr : SockAddrIn) :
    (eraseMap m addr).Sublist m := by
  induction m with
  | nil => simp [eraseMap]
  | cons q rest ih =>
      obtain ⟨a, i⟩ := q
      by_cases ha : addr = a
      · simp [eraseMap, ha]
      · simp [eraseMap, ha]
        exact ih

lemma lookupMap_mem {m : List (SockAddrIn × Nat)} {addr : SockAddrIn} {i : Nat}
    (h : lookupMap m addr = some i) : (addr, i) ∈ m := by
  induction m with
  | nil => simp [lookupMap] at h
  | cons q rest ih =>
      obtain ⟨a, j⟩ := q
      by_cases ha : addr = a
      · subst ha
        simp [lookupMap] at h
        simp [h]
      · simp [lookupMap, ha] at h
        exact List.mem_cons_of_mem _ (ih h)

lemma countAddr_eq_zero {m : List (SockAddrIn × Nat)} {addr : SockAddrIn}
    (h : lookupMap m addr = none) : countAddr m addr = 0 := by
  induction m with
  | nil => simp [countAddr]
  | cons q rest ih =>
      obtain ⟨a, i⟩ := q
      by_cases ha : addr = a
      · simp [lookupMap, ha] at h
      · simp [lookupMap, ha] at h
        have hba : (a == addr) = false := by
          simp only [beq_eq_false_iff_ne, ne_eq]
          exact fun e => ha e.symm
        simp only [countAddr, List.filter_cons, hba, Bool.false_eq_true,
          if_false]
        have := ih h
        simpa [countAddr] using this

lemma foldl_mem_of (f : Nat → Nat → Nat) (hf : ∀ b j, f b j = j ∨ f b j = b) :
    ∀ (l : List Nat) (i : Nat), l.foldl f i ∈ i :: l := by
  intro l
  induction l with
  | nil => simp
  | cons j rest ih =>
      intro i
      rcases hf i j with h | h <;> rw [List.foldl_cons, h]
      · exact List.mem_cons_of_mem _ (ih j)
      · rcases List.mem_cons.mp (ih i) with h2 | h2
        · simp [h2]
        · exact List.mem_cons_of_mem _ (List.mem_cons_of_mem _ h2)

lemma retry_top_mem {s : ManagerState} {t : Nat}
    (h : ConnectionManager.retry_top s = some t) : t ∈ s.retry_queue := by
  unfold ConnectionManager.retry_top at h
  cases hq : s.retry_queue with
  | nil => rw [hq] at h; simp at h
  | cons i is =>
      rw [hq] at h
      simp only [Option.some.injEq] at h
      rw [← h]
      refine foldl_mem_of _ (fun b j => ?_) is i
      dsimp only
      split
      · exact Or.inl rfl
      · exact Or.inr rfl

end StoreLemmas

/-- C9: when the comm layer's `connect` returns `OK`, `send_connect_request`
leaves the record unchanged (so `connected` stays false and `next_retry` is
untouched), pushes nothing onto the retry heap, and only the connect call
itself is issued. -/
theorem claim_C9 (cs : ConnectionState) (id : Nat) (queue : List Nat)
    (now : Int) (r1 r2 : Nat) :
    (ConnectionManager.send_connect_request cs id queue ErrCode.OK now r1 r2).1
        = cs ∧
    (ConnectionManager.send_connect_request cs id queue ErrCode.OK now r1
        r2).2.1 = queue ∧
    (ConnectionManager.send_connect_request cs id queue ErrCode.OK now r1
        r2).2.2 = [ConnectionManager.connectTrace cs id] := by
  rw [ConnectionManager.scr_ok]
  exact ⟨rfl, rfl, rfl⟩

/-- C2: on a synchronous connect failure (result neither `OK` nor
`COMM_ALREADY_CONNECTED`), `next_retry` becomes `now + timeout_ms` plus or
minus `rand32() % 2000` (subtracted exactly when the second draw is odd), so
it always lands within 2000 ms of `now + timeout_ms`, and the record is
pushed onto the retry heap. -/
theorem claim_C2 (cs : ConnectionState) (id : Nat) (queue : List Nat)
    (cr now : Int) (r1 r2 : Nat) (hok : cr ≠ ErrCode.OK)
    (hac : cr ≠ ErrCode.COMM_ALREADY_CONNECTED) :
    (ConnectionManager.send_connect_request cs id queue cr now r1
        r2).1.next_retry =
      (if r2 % 2 = 1 then
        now + (cs.timeout_ms : Int) - ((r1 % 2000 : Nat) : Int)
      else
        now + (cs.timeout_ms : Int) + ((r1 % 2000 : Nat) : Int)) ∧
    ((ConnectionManager.send_connect_request cs id queue cr now r1
        r2).1.next_retry - (now + (cs.timeout_ms : Int))).natAbs < 2000 ∧
    (ConnectionManager.send_connect_request cs id queue cr now r1 r2).2.1 =
      queue ++ [id] := by
  rw [ConnectionManager.scr_fail cs id queue cr now r1 r2 hok hac]
  refine ⟨rfl, ?_, rfl⟩
  have hlt : r1 % 2000 < 2000 := Nat.mod_lt _ (by norm_num)
  simp only [ConnectionManager.jitteredRetry]
  split <;> omega

/-- C2 witness: a failed connect (`cr = 1`) on a concrete record. -/
theorem claim_C2_witness :
    (ConnectionManager.send_connect_request
        ⟨⟨16909060, 8000⟩, zeroAddr, 5000, "svc", none, false, 0⟩
        0 [] 1 0 123 2).1.next_retry =
      (if 2 % 2 = 1 then
        (0 : Int) + ((5000 : Nat) : Int) - ((123 % 2000 : Nat) : Int)
      else
        (0 : Int) + ((5000 : Nat) : Int) + ((123 % 2000 : Nat) : Int)) ∧
    ((ConnectionManager.send_connect_request
        ⟨⟨16909060, 8000⟩, zeroAddr, 5000, "svc", none, false, 0⟩
        0 [] 1 0 123 2).1.next_retry - ((0 : Int) + ((5000 : Nat) : Int))).natAbs
      < 2000 ∧
    (ConnectionManager.send_connect_request
        ⟨⟨16909060, 8000⟩, zeroAddr, 5000, "svc", none, false, 0⟩
        0 [] 1 0 123 2).2.1 = [] ++ [0] :=
  claim_C2 ⟨⟨16909060, 8000⟩, zeroAddr, 5000, "svc", none, false, 0⟩
    0 [] 1 0 123 2 (by decide) (by decide)

/-- C8: an event whose address is not registered is logged and dropped: the
whole manager state (registry, heap, records) is unchanged and no comm call,
signal, or downstream dispatch is issued. -/
theorem claim_C8 (s : ManagerState) (e : Event) (now : Int)
    (h : lookupMap s.conn_map e.addr = none) :
    ConnectionManager.handle s e now = (s, [Trace.logWarn]) := by
  unfold ConnectionManager.handle
  rw [h]

/-- C8 witness: a `CONNECTION_ESTABLISHED` event on the empty registry. -/
theorem claim_C8_witness :
    ConnectionManager.handle sEmpty ⟨EventType.connection_established, addrEx⟩
      0 = (sEmpty, [Trace.logWarn]) :=
  claim_C8 sEmpty ⟨EventType.connection_established, addrEx⟩ 0 rfl

/-- C3: an `ERROR` or `DISCONNECT` event for a registered record clears its
`connected` flag, sets `next_retry` to exactly `now + timeout_ms` (no
jitter), pushes the record onto the retry heap, and signals the retry
condition. -/
theorem claim_C3 (s : ManagerState) (e : Event) (now : Int) (i : Nat)
    (cs : ConnectionState)
    (htype : e.type = EventType.error_event ∨ e.type = EventType.disconnect)
    (hmap : lookupMap s.conn_map e.addr = some i)
    (hrec : lookupRec s.records i = some cs) :
    lookupRec (ConnectionManager.handle s e now).1.records i =
      some { cs with connected := false,
                     next_retry := now + (cs.timeout_ms : Int) } ∧
    (ConnectionManager.handle s e now).1.retry_queue =
      s.retry_queue ++ [i] ∧
    Trace.notifyRetry ∈ (ConnectionManager.handle s e now).2 := by
  have hne : ¬ e.type = EventType.connection_established := by
    rcases htype with h | h <;> simp [h]
  simp only [ConnectionManager.handle, hmap, getRec, hrec, Option.getD_some,
    if_neg hne, if_pos htype]
  refine ⟨lookupRec_setRec_self _ hrec, by simp, ?_⟩
  cases cs.handler <;> simp

/-- C3 witness: a `DISCONNECT` for the registered record at time 7. -/
theorem claim_C3_witness :
    lookupRec (ConnectionManager.handle sConn ⟨EventType.disconnect, addrEx⟩
      7).1.records 0 =
      some { csConn with connected := false,
                         next_retry := 7 + (csConn.timeout_ms : Int) } ∧
    (ConnectionManager.handle sConn ⟨EventType.disconnect, addrEx⟩
      7).1.retry_queue = sConn.retry_queue ++ [0] ∧
    Trace.notifyRetry ∈
      (ConnectionManager.handle sConn ⟨EventType.disconnect, addrEx⟩ 7).2 :=
  claim_C3 sConn ⟨EventType.disconnect, addrEx⟩ 7 0 csConn (Or.inr rfl)
    (by decide) (by decide)

lemma wait_loop_true (w : List ConnectionManager.WakeResult) :
    ConnectionManager.wait_loop true w = some true := by
  cases w <;> rfl

/-- C7: `wait_for_connection` returns false immediately when the address is
unregistered; with a registered record it returns true when `connected` is
already true, returns true as soon as a wake-up observes `connected = true`,
and returns false when the timed wait expires with `connected` still
false. -/
theorem claim_C7 (s : ManagerState) (addr : SockAddrIn)
    (wakes : List ConnectionManager.WakeResult) (i : Nat)
    (cs : ConnectionState) :
    (lookupMap s.conn_map addr = none →
      ConnectionManager.wait_for_connection s addr wakes = some false) ∧
    (lookupMap s.conn_map addr = some i → lookupRec s.records i = some cs →
      cs.connected = true →
      ConnectionManager.wait_for_connection s addr wakes = some true) ∧
    ConnectionManager.wait_loop false
      (ConnectionManager.WakeResult.timeout :: wakes) = some false ∧
    ConnectionManager.wait_loop false
      (ConnectionManager.WakeResult.notified true :: wakes) = some true := by
  refine ⟨?_, ?_, rfl, wait_loop_true wakes⟩
  · intro h
    unfold ConnectionManager.wait_for_connection
    rw [h]
  · intro h1 h2 h3
    simp only [ConnectionManager.wait_for_connection, h1, getRec, h2,
      Option.getD_some, h3]
    exact wait_loop_true wakes

/-- C7 witness: absent address vs. already-connected record. -/
theorem claim_C7_witness :
    ConnectionManager.wait_for_connection sEmpty addrEx [] = some false ∧
    ConnectionManager.wait_for_connection sConn addrEx [] = some true :=
  ⟨(claim_C7 sEmpty addrEx [] 0 csEx).1 rfl,
   (claim_C7 sConn addrEx [] 0 csConn).2.1 (by decide) (by decide) rfl⟩

/-- C5: `remove` on an unregistered address returns `OK` leaving everything
unchanged; on a registered record it erases the registry entry and returns
the comm layer's `close_socket` status exactly when the record was connected
(poisoning a disconnected record instead and returning `OK`). -/
theorem claim_C5 (s : ManagerState) (addr : SockAddrIn) (cr : Int) (i : Nat) :
    (lookupMap s.conn_map addr = none →
      ConnectionManager.remove s addr cr = (s, ErrCode.OK, [])) ∧
    (lookupMap s.conn_map addr = some i →
      (getRec s.records i).connected = true →
      ConnectionManager.remove s addr cr =
        ({ s with conn_map := eraseMap s.conn_map addr }, cr,
         [Trace.closeSocket addr])) ∧
    (lookupMap s.conn_map addr = some i →
      (getRec s.records i).connected = false →
      ConnectionManager.remove s addr cr =
        ({ s with conn_map := eraseMap s.conn_map addr,
                  records := setRec s.records i
                    { getRec s.records i with connected := true } },
         ErrCode.OK, [])) := by
  refine ⟨?_, ?_, ?_⟩
  · intro h
    unfold ConnectionManager.remove
    rw [h]
  · intro h1 h2
    unfold ConnectionManager.remove
    rw [h1]
    simp [h2]
  · intro h1 h2
    unfold ConnectionManager.remove
    rw [h1]
    simp [h2]

/-- C5 witness: the three `remove` cases on concrete states. -/
theorem claim_C5_witness :
    ConnectionManager.remove sEmpty addrEx 3 = (sEmpty, ErrCode.OK, []) ∧
    ConnectionManager.remove sConn addrEx 3 =
      ({ sConn with conn_map := eraseMap sConn.conn_map addrEx }, 3,
       [Trace.closeSocket addrEx]) ∧
    ConnectionManager.remove sEx addrEx 3 =
      ({ sEx with conn_map := eraseMap sEx.conn_map addrEx,
                  records := setRec sEx.records 0
                    { getRec sEx.records 0 with connected := true } },
       ErrCode.OK, []) :=
  ⟨(claim_C5 sEmpty addrEx 3 0).1 rfl,
   (claim_C5 sConn addrEx 3 0).2.1 rfl rfl,
   (claim_C5 sEx addrEx 3 0).2.2 rfl rfl⟩

lemma countAddr_cons_self (a : SockAddrIn) (i : Nat)
    (m : List (SockAddrIn × Nat)) :
    countAddr ((a, i) :: m) a = countAddr m a + 1 := by
  simp [countAddr, List.filter_cons]

lemma connectOf_connectTrace (cs : ConnectionState) (id : Nat) :
    connectOf (ConnectionManager.connectTrace cs id) = some id := by
  unfold ConnectionManager.connectTrace
  split <;> rfl

lemma connectOf_notifyAll (id : Nat) : connectOf (Trace.notifyAll id) = none :=
  rfl

lemma connectOf_notifyRetry : connectOf Trace.notifyRetry = none := rfl

lemma scr_trace_head (cs : ConnectionState) (id : Nat) (queue : List Nat)
    (cr now : Int) (r1 r2 : Nat) :
    (ConnectionManager.send_connect_request cs id queue cr now r1 r2).2.2.head?
      = some (ConnectionManager.connectTrace cs id) := by
  by_cases hac : cr = ErrCode.COMM_ALREADY_CONNECTED
  · rw [hac, ConnectionManager.scr_already_connected]
    rfl
  · by_cases hok : cr = ErrCode.OK
    · rw [hok, ConnectionManager.scr_ok]
      rfl
    · rw [ConnectionManager.scr_fail cs id queue cr now r1 r2 hok hac]
      rfl

lemma connectCount_scr (cs : ConnectionState) (id : Nat) (queue : List Nat)
    (cr now : Int) (r1 r2 : Nat) :
    connectCount
      (ConnectionManager.send_connect_request cs id queue cr now r1 r2).2.2
      = 1 := by
  by_cases hac : cr = ErrCode.COMM_ALREADY_CONNECTED
  · rw [hac, ConnectionManager.scr_already_connected]
    simp [connectCount, List.filter_cons, connectOf_connectTrace,
      connectOf_notifyAll]
  · by_cases hok : cr = ErrCode.OK
    · rw [hok, ConnectionManager.scr_ok]
      simp [connectCount, List.filter_cons, connectOf_connectTrace]
    · rw [ConnectionManager.scr_fail cs id queue cr now r1 r2 hok hac]
      simp [connectCount, List.filter_cons, connectOf_connectTrace,
        connectOf_notifyRetry]

lemma scr_local_addr (cs : ConnectionState) (id : Nat) (queue : List Nat)
    (cr now : Int) (r1 r2 : Nat) :
    (ConnectionManager.send_connect_request cs id queue cr now r1
      r2).1.local_addr = cs.local_addr := by
  by_cases hac : cr = ErrCode.COMM_ALREADY_CONNECTED
  · rw [hac, ConnectionManager.scr_already_connected]
  · by_cases hok : cr = ErrCode.OK
    · rw [hok, ConnectionManager.scr_ok]
    · rw [ConnectionManager.scr_fail cs id queue cr now r1 r2 hok hac]

/-- C1: `add` on an already-registered address is a silent no-op (no record
created, no comm call); hence `add(E); add(E)` from a state without `E`
leaves exactly one registry entry for `E` and issues exactly one connect
call. -/
theorem claim_C1 (s : ManagerState) (addr : SockAddrIn) (t : Nat)
    (svc : Option String) (h : Option Nat) (now cr : Int) (r1 r2 : Nat)
    (now2 cr2 : Int) (r1' r2' : Nat)
    (habs : lookupMap s.conn_map addr = none) :
    (∀ s' : ManagerState, (lookupMap s'.conn_map addr).isSome = true →
      ConnectionManager.add s' addr t svc h now2 cr2 r1' r2' = (s', [])) ∧
    ConnectionManager.add
        (ConnectionManager.add s addr t svc h now cr r1 r2).1 addr t svc h
        now2 cr2 r1' r2' =
      ((ConnectionManager.add s addr t svc h now cr r1 r2).1, []) ∧
    countAddr (ConnectionManager.add s addr t svc h now cr r1 r2).1.conn_map
        addr = 1 ∧
    connectCount ((ConnectionManager.add s addr t svc h now cr r1 r2).2 ++
        ((ConnectionManager.add
          (ConnectionManager.add s addr t svc h now cr r1 r2).1 addr t svc h
          now2 cr2 r1' r2').2)) = 1 := by
  have hdup : ∀ s' : ManagerState,
      (lookupMap s'.conn_map addr).isSome = true →
      ConnectionManager.add s' addr t svc h now2 cr2 r1' r2' = (s', []) := by
    intro s' hs'
    unfold ConnectionManager.add ConnectionManager.add_with_local
    rw [if_pos hs']
  have hmap1 : lookupMap
      (ConnectionManager.add s addr t svc h now cr r1 r2).1.conn_map addr =
      some s.next_id := by
    unfold ConnectionManager.add ConnectionManager.add_with_local
    rw [if_neg (by rw [habs]; simp)]
    simp [lookupMap]
  have hsecond := hdup _ (by rw [hmap1]; rfl)
  refine ⟨hdup, hsecond, ?_, ?_⟩
  · unfold ConnectionManager.add ConnectionManager.add_with_local
    rw [if_neg (by rw [habs]; simp)]
    show countAddr ((addr, s.next_id) :: s.conn_map) addr = 1
    rw [countAddr_cons_self, countAddr_eq_zero habs]
  · rw [hsecond]
    simp only [List.append_nil]
    unfold ConnectionManager.add ConnectionManager.add_with_local
    rw [if_neg (by rw [habs]; simp)]
    exact connectCount_scr _ _ _ _ _ _ _

/-- C1 witness: registering 1.2.3.4:8000 twice in the empty manager. -/
theorem claim_C1_witness :
    (∀ s' : ManagerState, (lookupMap s'.conn_map addrEx).isSome = true →
      ConnectionManager.add s' addrEx 5000 none none 9 0 0 0 = (s', [])) ∧
    ConnectionManager.add
        (ConnectionManager.add sEmpty addrEx 5000 none none 8 0 0 0).1 addrEx
        5000 none none 9 0 0 0 =
      ((ConnectionManager.add sEmpty addrEx 5000 none none 8 0 0 0).1, []) ∧
    countAddr
      (ConnectionManager.add sEmpty addrEx 5000 none none 8 0 0 0).1.conn_map
      addrEx = 1 ∧
    connectCount ((ConnectionManager.add sEmpty addrEx 5000 none none 8 0 0
        0).2 ++
      ((ConnectionManager.add
        (ConnectionManager.add sEmpty addrEx 5000 none none 8 0 0 0).1 addrEx
        5000 none none 9 0 0 0).2)) = 1 :=
  claim_C1 sEmpty addrEx 5000 none none 8 0 0 0 9 0 0 0 rfl

/-- C10: the `add` overload without a local address stores a zero-filled
`local_addr`; `send_connect_request` issues the bound connect exactly when
`local_addr.sin_port ≠ 0`; and `add` with an explicit local address whose
port is 0 produces the same calls as the overload without one. -/
theorem claim_C10 (s : ManagerState) (addr la : SockAddrIn) (t : Nat)
    (svc : Option String) (h : Option Nat) (now cr : Int) (r1 r2 : Nat)
    (id : Nat) (queue : List Nat) (cs : ConnectionState) :
    (lookupMap s.conn_map addr = none →
      (getRec (ConnectionManager.add s addr t svc h now cr r1
        r2).1.records s.next_id).local_addr = zeroAddr) ∧
    (cs.local_addr.sin_port ≠ 0 →
      (ConnectionManager.send_connect_request cs id queue cr now r1
        r2).2.2.head? =
        some (Trace.connectBound id cs.addr cs.local_addr)) ∧
    (cs.local_addr.sin_port = 0 →
      (ConnectionManager.send_connect_request cs id queue cr now r1
        r2).2.2.head? = some (Trace.connect id cs.addr)) ∧
    (la.sin_port = 0 →
      (ConnectionManager.add_with_local s addr la t svc h now cr r1 r2).2 =
      (ConnectionManager.add s addr t svc h now cr r1 r2).2) := by
  refine ⟨?_, ?_, ?_, ?_⟩
  · intro habs
    unfold ConnectionManager.add ConnectionManager.add_with_local
    rw [if_neg (by rw [habs]; simp)]
    simp only [getRec, lookupRec, if_pos rfl, Option.getD_some]
    exact scr_local_addr _ _ _ _ _ _ _
  · intro hp
    rw [scr_trace_head]
    unfold ConnectionManager.connectTrace
    rw [if_pos hp]
  · intro hp
    rw [scr_trace_head]
    unfold ConnectionManager.connectTrace
    rw [if_neg (by simp [hp])]
  · intro hp
    unfold ConnectionManager.add ConnectionManager.add_with_local
    by_cases hs : (lookupMap s.conn_map addr).isSome = true
    · rw [if_pos hs, if_pos hs]
    · rw [if_neg hs, if_neg hs]
      simp only []
      unfold ConnectionManager.send_connect_request
      simp only [hp, zeroAddr]
      split_ifs <;> first | rfl | (exfalso; omega)

/-- C10 witness: zero-filled local address, bound vs. unbound connect choice,
and a port-0 local address matching the plain overload. -/
theorem claim_C10_witness :
    (getRec (ConnectionManager.add sEmpty addrEx 5000 none none 0 0 0
      0).1.records 0).local_addr = zeroAddr ∧
    (ConnectionManager.send_connect_request
      ⟨addrEx, ⟨7, 9⟩, 5000, "", none, false, 0⟩ 0 [] 0 0 0 0).2.2.head? =
      some (Trace.connectBound 0 addrEx ⟨7, 9⟩) ∧
    (ConnectionManager.send_connect_request csEx 0 [] 0 0 0 0).2.2.head? =
      some (Trace.connect 0 addrEx) ∧
    (ConnectionManager.add_with_local sEmpty addrEx ⟨7, 0⟩ 5000 none none 0 0
      0 0).2 = (ConnectionManager.add sEmpty addrEx 5000 none none 0 0 0
      0).2 :=
  ⟨(claim_C10 sEmpty addrEx ⟨7, 0⟩ 5000 none none 0 0 0 0 0 [] csEx).1 rfl,
   (claim_C10 sEmpty addrEx ⟨7, 0⟩ 5000 none none 0 0 0 0 0 []
     ⟨addrEx, ⟨7, 9⟩, 5000, "", none, false, 0⟩).2.1 (by decide),
   (claim_C10 sEmpty addrEx ⟨7, 0⟩ 5000 none none 0 0 0 0 0 [] csEx).2.2.1
     (by decide),
   (claim_C10 sEmpty addrEx ⟨7, 0⟩ 5000 none none 0 0 0 0 0 [] csEx).2.2.2
     rfl⟩

section InvariantLemmas

lemma lookupRec_cons_ne {recs : List (Nat × ConnectionState)} (j : Nat)
    (c : ConnectionState) {i : Nat} (h : i ≠ j) :
    lookupRec ((j, c) :: recs) i = lookupRec recs i := by
  simp [lookupRec, h]

lemma isSome_lookupRec_cons {recs : List (Nat × ConnectionState)} {i : Nat}
    (j : Nat) (c : ConnectionState)
    (h : (lookupRec recs i).isSome = true) :
    (lookupRec ((j, c) :: recs) i).isSome = true := by
  by_cases hij : i = j <;> simp [lookupRec, hij, h]

lemma fst_lt_of_mem_setRec {n i : Nat} {c2 : ConnectionState} :
    ∀ (recs : List (Nat × ConnectionState)), (∀ p ∈ recs, p.1 < n) →
      ∀ p ∈ setRec recs i c2, p.1 < n := by
  intro recs
  induction recs with
  | nil => intro _ p hp; simp [setRec] at hp
  | cons q rest ih =>
      obtain ⟨j, c0⟩ := q
      intro hw p hp
      by_cases hij : i = j
      · rw [setRec, if_pos hij] at hp
        rcases List.mem_cons.mp hp with h | h
        · rw [h]
          exact hw (j, c0) (List.mem_cons_self _ _)
        · exact hw p (List.mem_cons_of_mem _ h)
      · rw [setRec, if_neg hij] at hp
        rcases List.mem_cons.mp hp with h | h
        · rw [h]
          exact hw (j, c0) (List.mem_cons_self _ _)
        · exact ih (fun q hq => hw q (List.mem_cons_of_mem _ hq)) p h

lemma lt_of_lookupRec_isSome {s : ManagerState} (hw : wf s) {i : Nat}
    (h : (lookupRec s.records i).isSome = true) : i < s.next_id := by
  cases hli : lookupRec s.records i with
  | none => rw [hli] at h; simp at h
  | some c => exact hw.1 _ (lookupRec_mem hli)

lemma scr_queue_cases (cs : ConnectionState) (id : Nat) (queue : List Nat)
    (cr now : Int) (r1 r2 : Nat) :
    (ConnectionManager.send_connect_request cs id queue cr now r1 r2).2.1 =
      queue ∨
    (ConnectionManager.send_connect_request cs id queue cr now r1 r2).2.1 =
      queue ++ [id] := by
  by_cases hac : cr = ErrCode.COMM_ALREADY_CONNECTED
  · rw [hac, ConnectionManager.scr_already_connected]
    exact Or.inl rfl
  · by_cases hok : cr = ErrCode.OK
    · rw [hok, ConnectionManager.scr_ok]
      exact Or.inl rfl
    · rw [ConnectionManager.scr_fail cs id queue cr now r1 r2 hok hac]
      exact Or.inr rfl

lemma eraseMap_value_ne :
    ∀ (m : List (SockAddrIn × Nat)) (addr : SockAddrIn) (i : Nat),
      m.Pairwise (fun p q => p.2 ≠ q.2) → lookupMap m addr = some i →
      ∀ p ∈ eraseMap m addr, p.2 ≠ i := by
  intro m
  induction m with
  | nil => intro addr i _ h; simp [lookupMap] at h
  | cons q rest ih =>
      obtain ⟨a, j⟩ := q
      intro addr i hpw h p hp
      rw [List.pairwise_cons] at hpw
      obtain ⟨hj, hrest⟩ := hpw
      by_cases ha : addr = a
      · simp [lookupMap, ha] at h
        simp [eraseMap, ha] at hp
        have hne : j ≠ p.2 := hj p hp
        omega
      · simp [lookupMap, ha] at h
        simp [eraseMap, ha] at hp
        rcases hp with hp | hp
        · have hmem := lookupMap_mem h
          have hne := hj _ hmem
          rw [hp]
          exact hne
        · exact ih addr i hrest h p hp

lemma wf_register (s : ManagerState) (addr : SockAddrIn)
    (R : ConnectionState) (q2 : List Nat)
    (hq : q2 = s.retry_queue ∨ q2 = s.retry_queue ++ [s.next_id])
    (hw : wf s) :
    wf { s with records := (s.next_id, R) :: s.records,
                conn_map := (addr, s.next_id) :: s.conn_map,
                retry_queue := q2, next_id := s.next_id + 1 } := by
  obtain ⟨hw1, hw2, hw3, hw4⟩ := hw
  refine ⟨?_, ?_, ?_, ?_⟩
  · intro p hp
    rcases List.mem_cons.mp hp with h | h
    · rw [h]
      exact Nat.lt_succ_self _
    · exact Nat.lt_succ_of_lt (hw1 p h)
  · intro p hp
    rcases List.mem_cons.mp hp with h | h
    · rw [h]
      simp [lookupRec]
    · exact isSome_lookupRec_cons _ _ (hw2 p h)
  · intro i hi
    rcases hq with hq | hq
    · rw [hq] at hi
      exact isSome_lookupRec_cons _ _ (hw3 i hi)
    · rw [hq] at hi
      rcases List.mem_append.mp hi with h | h
      · exact isSome_lookupRec_cons _ _ (hw3 i h)
      · simp at h
        rw [h]
        simp [lookupRec]
  · refine List.Pairwise.cons ?_ hw4
    intro q hq'
    have hlt := lt_of_lookupRec_isSome ⟨hw1, hw2, hw3, hw4⟩ (hw2 q hq')
    show s.next_id ≠ q.2
    omega

lemma wf_add_with_local (s : ManagerState) (addr la : SockAddrIn) (t : Nat)
    (svc : Option String) (h : Option Nat) (now cr : Int) (r1 r2 : Nat)
    (hw : wf s) :
    wf (ConnectionManager.add_with_local s addr la t svc h now cr r1 r2).1
    := by
  unfold ConnectionManager.add_with_local
  by_cases hl : (lookupMap s.conn_map addr).isSome = true
  · rw [if_pos hl]
    exact hw
  · rw [if_neg hl]
    exact wf_register s addr _ _ (scr_queue_cases _ _ _ _ _ _ _) hw

lemma add_dup {s : ManagerState} {addr : SockAddrIn} (la : SockAddrIn)
    (t : Nat) (svc : Option String) (h : Option Nat) (now cr : Int)
    (r1 r2 : Nat) (hl : (lookupMap s.conn_map addr).isSome = true) :
    ConnectionManager.add_with_local s addr la t svc h now cr r1 r2 =
      (s, []) := by
  unfold ConnectionManager.add_with_local
  rw [if_pos hl]

lemma add_fresh {s : ManagerState} {addr : SockAddrIn} (la : SockAddrIn)
    (t : Nat) (svc : Option String) (h : Option Nat) (now cr : Int)
    (r1 r2 : Nat) (hl : lookupMap s.conn_map addr = none) :
    ConnectionManager.add_with_local s addr la t svc h now cr r1 r2 =
      ({ s with
          records := (s.next_id,
            (ConnectionManager.send_connect_request
              (newRecord addr la t svc h now) s.next_id s.retry_queue cr now
              r1 r2).1) :: s.records,
          conn_map := (addr, s.next_id) :: s.conn_map,
          retry_queue := (ConnectionManager.send_connect_request
              (newRecord addr la t svc h now) s.next_id s.retry_queue cr now
              r1 r2).2.1,
          next_id := s.next_id + 1 },
       (ConnectionManager.send_connect_request (newRecord addr la t svc h now)
          s.next_id s.retry_queue cr now r1 r2).2.2) := by
  unfold ConnectionManager.add_with_local
  rw [if_neg (by rw [hl]; simp)]
  rfl

lemma handle_unknown {s : ManagerState} {e : Event} (now : Int)
    (hm : lookupMap s.conn_map e.addr = none) :
    ConnectionManager.handle s e now = (s, [Trace.logWarn]) := by
  unfold ConnectionManager.handle
  rw [hm]

lemma handle_est {s : ManagerState} {e : Event} (now : Int) {i : Nat}
    (hm : lookupMap s.conn_map e.addr = some i)
    (hest : e.type = EventType.connection_established) :
    ConnectionManager.handle s e now =
      ({ s with records := setRec s.records i
                             (connectedRecord (getRec s.records i)) },
       [Trace.notifyAll i] ++ handlerTrace (getRec s.records i).handler e)
    := by
  unfold ConnectionManager.handle
  rw [hm]
  cases hh : (getRec s.records i).handler <;>
    simp [hest, hh, handlerTrace, connectedRecord]

lemma handle_fail {s : ManagerState} {e : Event} (now : Int) {i : Nat}
    (hm : lookupMap s.conn_map e.addr = some i)
    (htype : e.type = EventType.error_event ∨
      e.type = EventType.disconnect) :
    ConnectionManager.handle s e now =
      ({ s with records := setRec s.records i
                             (failRecord (getRec s.records i) now),
                retry_queue := s.retry_queue ++ [i] },
       [Trace.notifyRetry] ++ handlerTrace (getRec s.records i).handler e)
    := by
  have hne : ¬ e.type = EventType.connection_established := by
    rcases htype with h | h <;> simp [h]
  unfold ConnectionManager.handle
  rw [hm]
  cases hh : (getRec s.records i).handler <;>
    simp [if_neg hne, if_pos htype, hh, handlerTrace, failRecord]

lemma handle_msg {s : ManagerState} {e : Event} (now : Int) {i : Nat}
    (hm : lookupMap s.conn_map e.addr = some i)
    (hmsg : e.type = EventType.message) :
    ConnectionManager.handle s e now =
      ({ s with records := setRec s.records i (getRec s.records i) },
       handlerTrace (getRec s.records i).handler e) := by
  unfold ConnectionManager.handle
  rw [hm]
  cases hh : (getRec s.records i).handler <;>
    simp [hmsg, hh, handlerTrace]

lemma worker_shutdown {s : ManagerState} (now cr : Int) (r1 r2 : Nat)
    (hsd : s.shutdown = true) :
    ConnectionManager.worker_step s now cr r1 r2 =
      (s, [], ConnectionManager.WorkerAct.exited) := by
  unfold ConnectionManager.worker_step
  rw [if_pos hsd]

lemma worker_empty {s : ManagerState} (now cr : Int) (r1 r2 : Nat)
    (hsd : s.shutdown = false)
    (ht : ConnectionManager.retry_top s = none) :
    ConnectionManager.worker_step s now cr r1 r2 =
      (s, [], ConnectionManager.WorkerAct.waited) := by
  unfold ConnectionManager.worker_step
  rw [if_neg (by simp [hsd]), ht]

lemma worker_discard {s : ManagerState} {t : Nat} (now cr : Int) (r1 r2 : Nat)
    (hsd : s.shutdown = false)
    (ht : ConnectionManager.retry_top s = some t)
    (hc : (getRec s.records t).connected = true) :
    ConnectionManager.worker_step s now cr r1 r2 =
      ({ s with retry_queue := s.retry_queue.erase t }, [],
       ConnectionManager.WorkerAct.discarded t) := by
  unfold ConnectionManager.worker_step
  rw [if_neg (by simp [hsd]), ht]
  simp [hc]

lemma worker_attempt {s : ManagerState} {t : Nat} (now cr : Int) (r1 r2 : Nat)
    (hsd : s.shutdown = false)
    (ht : ConnectionManager.retry_top s = some t)
    (hc : (getRec s.records t).connected = false)
    (hdue : (getRec s.records t).next_retry ≤ now) :
    ConnectionManager.worker_step s now cr r1 r2 =
      ({ s with
          records := setRec s.records t
            (ConnectionManager.send_connect_request (getRec s.records t) t
              (s.retry_queue.erase t) cr now r1 r2).1,
          retry_queue := (ConnectionManager.send_connect_request
              (getRec s.records t) t (s.retry_queue.erase t) cr now r1
              r2).2.1 },
       (ConnectionManager.send_connect_request (getRec s.records t) t
          (s.retry_queue.erase t) cr now r1 r2).2.2,
       ConnectionManager.WorkerAct.attempted t) := by
  unfold ConnectionManager.worker_step
  rw [if_neg (by simp [hsd]), ht]
  simp [hc, hdue]

lemma worker_wait {s : ManagerState} {t : Nat} (now cr : Int) (r1 r2 : Nat)
    (hsd : s.shutdown = false)
    (ht : ConnectionManager.retry_top s = some t)
    (hc : (getRec s.records t).connected = false)
    (hdue : ¬ (getRec s.records t).next_retry ≤ now) :
    ConnectionManager.worker_step s now cr r1 r2 =
      (s, [], ConnectionManager.WorkerAct.waited) := by
  unfold ConnectionManager.worker_step
  rw [if_neg (by simp [hsd]), ht]
  simp [hc, hdue]

lemma wf_update (s : ManagerState) (i : Nat) (R : ConnectionState)
    (q2 : List Nat)
    (hq : ∀ j ∈ q2, (lookupRec s.records j).isSome = true)
    (hw : wf s) :
    wf { s with records := setRec s.records i R, retry_queue := q2 } := by
  obtain ⟨hw1, hw2, hw3, hw4⟩ := hw
  refine ⟨fst_lt_of_mem_setRec s.records hw1, ?_, ?_, hw4⟩
  · intro p hp
    rw [isSome_lookupRec_setRec]
    exact hw2 p hp
  · intro j hj
    rw [isSome_lookupRec_setRec]
    exact hq j hj

lemma wf_remove (s : ManagerState) (addr : SockAddrIn) (cr : Int)
    (hw : wf s) : wf (ConnectionManager.remove s addr cr).1 := by
  obtain ⟨hw1, hw2, hw3, hw4⟩ := hw
  unfold ConnectionManager.remove
  cases hm : lookupMap s.conn_map addr with
  | none => exact ⟨hw1, hw2, hw3, hw4⟩
  | some i =>
      by_cases hc : (getRec s.records i).connected = true
      · simp only [hc, if_true]
        refine ⟨hw1, ?_, hw3, ?_⟩
        · intro p hp
          exact hw2 p (mem_eraseMap hp)
        · exact List.Pairwise.sublist (eraseMap_sublist _ _) hw4
      · simp only [hc, Bool.false_eq_true, if_false]
        refine ⟨?_, ?_, ?_, ?_⟩
        · exact fst_lt_of_mem_setRec s.records hw1
        · intro p hp
          rw [isSome_lookupRec_setRec]
          exact hw2 p (mem_eraseMap hp)
        · intro j hj
          rw [isSome_lookupRec_setRec]
          exact hw3 j hj
        · exact List.Pairwise.sublist (eraseMap_sublist _ _) hw4

lemma wf_handle (s : ManagerState) (e : Event) (now : Int) (hw : wf s) :
    wf (ConnectionManager.handle s e now).1 := by
  cases hm : lookupMap s.conn_map e.addr with
  | none =>
      rw [handle_unknown now hm]
      exact hw
  | some i =>
      have hi : (lookupRec s.records i).isSome = true :=
        hw.2.1 _ (lookupMap_mem hm)
      cases htype : e.type with
      | connection_established =>
          rw [handle_est now hm htype]
          exact wf_update s i _ _ hw.2.2.1 hw
      | error_event =>
          rw [handle_fail now hm (Or.inl htype)]
          refine wf_update s i _ _ ?_ hw
          intro j hj
          rcases List.mem_append.mp hj with h | h
          · exact hw.2.2.1 j h
          · simp at h
            rw [h]
            exact hi
      | disconnect =>
          rw [handle_fail now hm (Or.inr htype)]
          refine wf_update s i _ _ ?_ hw
          intro j hj
          rcases List.mem_append.mp hj with h | h
          · exact hw.2.2.1 j h
          · simp at h
            rw [h]
            exact hi
      | message =>
          rw [handle_msg now hm htype]
          exact wf_update s i _ _ hw.2.2.1 hw

lemma wf_worker (s : ManagerState) (now cr : Int) (r1 r2 : Nat) (hw : wf s) :
    wf (ConnectionManager.worker_step s now cr r1 r2).1 := by
  cases hsd : s.shutdown with
  | true =>
      rw [worker_shutdown now cr r1 r2 hsd]
      exact hw
  | false =>
      cases ht : ConnectionManager.retry_top s with
      | none =>
          rw [worker_empty now cr r1 r2 hsd ht]
          exact hw
      | some t =>
          have hti : (lookupRec s.records t).isSome = true :=
            hw.2.2.1 t (retry_top_mem ht)
          cases hc : (getRec s.records t).connected with
          | true =>
              rw [worker_discard now cr r1 r2 hsd ht hc]
              refine ⟨hw.1, hw.2.1, ?_, hw.2.2.2⟩
              intro j hj
              exact hw.2.2.1 j (List.mem_of_mem_erase hj)
          | false =>
              by_cases hdue : (getRec s.records t).next_retry ≤ now
              · rw [worker_attempt now cr r1 r2 hsd ht hc hdue]
                refine wf_update s t _ _ ?_ hw
                have herase : ∀ j ∈ s.retry_queue.erase t,
                    (lookupRec s.records j).isSome = true :=
                  fun j hj => hw.2.2.1 j (List.mem_of_mem_erase hj)
                rcases scr_queue_cases (getRec s.records t) t
                    (s.retry_queue.erase t) cr now r1 r2 with hq | hq
                · rw [hq]
                  exact herase
                · rw [hq]
                  intro j hj
                  rcases List.mem_append.mp hj with h | h
                  · exact herase j h
                  · simp at h
                    rw [h]
                    exact hti
              · rw [worker_wait now cr r1 r2 hsd ht hc hdue]
                exact hw

lemma wf_applyOp (s : ManagerState) (op : Op) (hw : wf s) :
    wf (applyOp s op).1 := by
  cases op with
  | addOp addr t svc h now cr r1 r2 =>
      exact wf_add_with_local s addr zeroAddr t svc h now cr r1 r2 hw
  | addLocalOp addr la t svc h now cr r1 r2 =>
      exact wf_add_with_local s addr la t svc h now cr r1 r2 hw
  | removeOp addr cr => exact wf_remove s addr cr hw
  | handleOp e now => exact wf_handle s e now hw
  | workerOp now cr r1 r2 => exact wf_worker s now cr r1 r2 hw

lemma poisoned_lt {s : ManagerState} {r : Nat} (hw : wf s)
    (hp : poisoned s r) : r < s.next_id := by
  obtain ⟨hp1, _⟩ := hp
  cases hlr : lookupRec s.records r with
  | none => rw [hlr] at hp1; simp at hp1
  | some c => exact hw.1 _ (lookupRec_mem hlr)

lemma poisoned_add_with_local (s : ManagerState) (addr la : SockAddrIn)
    (t : Nat) (svc : Option String) (h : Option Nat) (now cr : Int)
    (r1 r2 : Nat) (r : Nat) (hw : wf s) (hp : poisoned s r) :
    poisoned (ConnectionManager.add_with_local s addr la t svc h now cr r1
      r2).1 r := by
  by_cases hl : (lookupMap s.conn_map addr).isSome = true
  · rw [add_dup la t svc h now cr r1 r2 hl]
    exact hp
  · have hl' : lookupMap s.conn_map addr = none := by
      cases hx : lookupMap s.conn_map addr with
      | none => rfl
      | some j => rw [hx] at hl; simp at hl
    rw [add_fresh la t svc h now cr r1 r2 hl']
    have hrlt : r < s.next_id := poisoned_lt hw hp
    obtain ⟨hp1, hp2⟩ := hp
    constructor
    · rw [lookupRec_cons_ne _ _ (by omega)]
      exact hp1
    · intro p hpm
      rcases List.mem_cons.mp hpm with hh | hh
      · rw [hh]
        show s.next_id ≠ r
        omega
      · exact hp2 p hh

lemma poisoned_remove (s : ManagerState) (addr : SockAddrIn) (cr : Int)
    (r : Nat) (hp : poisoned s r) :
    poisoned (ConnectionManager.remove s addr cr).1 r := by
  obtain ⟨hp1, hp2⟩ := hp
  unfold ConnectionManager.remove
  cases hm : lookupMap s.conn_map addr with
  | none => exact ⟨hp1, hp2⟩
  | some i =>
      have hir : i ≠ r := hp2 _ (lookupMap_mem hm)
      by_cases hc : (getRec s.records i).connected = true
      · simp only [hc, if_true]
        exact ⟨hp1, fun p hpm => hp2 p (mem_eraseMap hpm)⟩
      · simp only [hc, Bool.false_eq_true, if_false]
        refine ⟨?_, fun p hpm => hp2 p (mem_eraseMap hpm)⟩
        rw [lookupRec_setRec_ne _ (fun e => hir e.symm)]
        exact hp1

lemma poisoned_handle (s : ManagerState) (e : Event) (now : Int) (r : Nat)
    (hp : poisoned s r) :
    poisoned (ConnectionManager.handle s e now).1 r := by
  obtain ⟨hp1, hp2⟩ := hp
  cases hm : lookupMap s.conn_map e.addr with
  | none =>
      rw [handle_unknown now hm]
      exact ⟨hp1, hp2⟩
  | some i =>
      have hir : i ≠ r := hp2 _ (lookupMap_mem hm)
      have hset : ∀ (R : ConnectionState),
          lookupRec (setRec s.records i R) r = lookupRec s.records r :=
        fun R => lookupRec_setRec_ne _ (fun e2 => hir e2.symm)
      cases htype : e.type with
      | connection_established =>
          rw [handle_est now hm htype]
          exact ⟨by rw [hset]; exact hp1, hp2⟩
      | error_event =>
          rw [handle_fail now hm (Or.inl htype)]
          exact ⟨by rw [hset]; exact hp1, hp2⟩
      | disconnect =>
          rw [handle_fail now hm (Or.inr htype)]
          exact ⟨by rw [hset]; exact hp1, hp2⟩
      | message =>
          rw [handle_msg now hm htype]
          exact ⟨by rw [hset]; exact hp1, hp2⟩

lemma poisoned_top_ne {s : ManagerState} {t r : Nat}
    (hp : poisoned s r) (hc : (getRec s.records t).connected = false) :
    t ≠ r := by
  intro he
  obtain ⟨hp1, _⟩ := hp
  rw [he] at hc
  cases hlr : lookupRec s.records r with
  | none => rw [hlr] at hp1; simp at hp1
  | some c =>
      rw [hlr] at hp1
      simp at hp1
      rw [getRec, hlr] at hc
      simp at hc
      rw [hp1] at hc
      exact absurd hc (by simp)

lemma poisoned_worker (s : ManagerState) (now cr : Int) (r1 r2 : Nat)
    (r : Nat) (hp : poisoned s r) :
    poisoned (ConnectionManager.worker_step s now cr r1 r2).1 r := by
  cases hsd : s.shutdown with
  | true =>
      rw [worker_shutdown now cr r1 r2 hsd]
      exact hp
  | false =>
      cases ht : ConnectionManager.retry_top s with
      | none =>
          rw [worker_empty now cr r1 r2 hsd ht]
          exact hp
      | some t =>
          cases hc : (getRec s.records t).connected with
          | true =>
              rw [worker_discard now cr r1 r2 hsd ht hc]
              exact hp
          | false =>
              by_cases hdue : (getRec s.records t).next_retry ≤ now
              · rw [worker_attempt now cr r1 r2 hsd ht hc hdue]
                have htr : t ≠ r := poisoned_top_ne hp hc
                obtain ⟨hp1, hp2⟩ := hp
                refine ⟨?_, hp2⟩
                rw [lookupRec_setRec_ne _ (fun e => htr e.symm)]
                exact hp1
              · rw [worker_wait now cr r1 r2 hsd ht hc hdue]
                exact hp

lemma poisoned_applyOp (s : ManagerState) (op : Op) (r : Nat) (hw : wf s)
    (hp : poisoned s r) : poisoned (applyOp s op).1 r := by
  cases op with
  | addOp addr t svc h now cr r1 r2 =>
      exact poisoned_add_with_local s addr zeroAddr t svc h now cr r1 r2 r
        hw hp
  | addLocalOp addr la t svc h now cr r1 r2 =>
      exact poisoned_add_with_local s addr la t svc h now cr r1 r2 r hw hp
  | removeOp addr cr => exact poisoned_remove s addr cr r hp
  | handleOp e now => exact poisoned_handle s e now r hp
  | workerOp now cr r1 r2 => exact poisoned_worker s now cr r1 r2 r hp

lemma connectFree_scr {r : Nat} (cs : ConnectionState) {id : Nat}
    (queue : List Nat) (cr now : Int) (r1 r2 : Nat) (hir : id ≠ r) :
    connectFree r
      (ConnectionManager.send_connect_request cs id queue cr now r1 r2).2.2
    := by
  have hct : connectOf (ConnectionManager.connectTrace cs id) ≠ some r := by
    rw [connectOf_connectTrace]
    simp [hir]
  by_cases hac : cr = ErrCode.COMM_ALREADY_CONNECTED
  · rw [hac, ConnectionManager.scr_already_connected]
    intro tr htr
    rcases List.mem_cons.mp htr with hh | hh
    · rw [hh]; exact hct
    · simp at hh
      rw [hh]
      simp [connectOf]
  · by_cases hok : cr = ErrCode.OK
    · rw [hok, ConnectionManager.scr_ok]
      intro tr htr
      simp at htr
      rw [htr]
      exact hct
    · rw [ConnectionManager.scr_fail cs id queue cr now r1 r2 hok hac]
      intro tr htr
      rcases List.mem_cons.mp htr with hh | hh
      · rw [hh]; exact hct
      · simp at hh
        rw [hh]
        simp [connectOf]

lemma connectFree_handlerTrace (r : Nat) (h : Option Nat) (e : Event) :
    connectFree r (handlerTrace h e) := by
  cases h <;> intro tr htr <;> simp [handlerTrace] at htr
  rw [htr]
  simp [connectOf]

lemma connectFree_append {r : Nat} {l1 l2 : List Trace}
    (h1 : connectFree r l1) (h2 : connectFree r l2) :
    connectFree r (l1 ++ l2) := by
  intro tr htr
  rcases List.mem_append.mp htr with h | h
  · exact h1 tr h
  · exact h2 tr h

lemma connectFree_applyOp (s : ManagerState) (op : Op) (r : Nat) (hw : wf s)
    (hp : poisoned s r) : connectFree r (applyOp s op).2 := by
  cases op with
  | addOp addr t svc h now cr r1 r2 =>
      show connectFree r
        (ConnectionManager.add_with_local s addr zeroAddr t svc h now cr r1
          r2).2
      by_cases hl : (lookupMap s.conn_map addr).isSome = true
      · rw [add_dup zeroAddr t svc h now cr r1 r2 hl]
        intro tr htr
        simp at htr
      · have hl' : lookupMap s.conn_map addr = none := by
          cases hx : lookupMap s.conn_map addr with
          | none => rfl
          | some j => rw [hx] at hl; simp at hl
        rw [add_fresh zeroAddr t svc h now cr r1 r2 hl']
        have hrlt : r < s.next_id := poisoned_lt hw hp
        exact connectFree_scr _ _ _ _ _ _ (by omega)
  | addLocalOp addr la t svc h now cr r1 r2 =>
      show connectFree r
        (ConnectionManager.add_with_local s addr la t svc h now cr r1 r2).2
      by_cases hl : (lookupMap s.conn_map addr).isSome = true
      · rw [add_dup la t svc h now cr r1 r2 hl]
        intro tr htr
        simp at htr
      · have hl' : lookupMap s.conn_map addr = none := by
          cases hx : lookupMap s.conn_map addr with
          | none => rfl
          | some j => rw [hx] at hl; simp at hl
        rw [add_fresh la t svc h now cr r1 r2 hl']
        have hrlt : r < s.next_id := poisoned_lt hw hp
        exact connectFree_scr _ _ _ _ _ _ (by omega)
  | removeOp addr cr =>
      show connectFree r (ConnectionManager.remove s addr cr).2.2
      unfold ConnectionManager.remove
      cases hm : lookupMap s.conn_map addr with
      | none => intro tr htr; simp at htr
      | some i =>
          by_cases hc : (getRec s.records i).connected = true
          · simp only [hc, if_true]
            intro tr htr
            simp at htr
            rw [htr]
            simp [connectOf]
          · simp only [hc, Bool.false_eq_true, if_false]
            intro tr htr
            simp at htr
  | handleOp e now =>
      show connectFree r (ConnectionManager.handle s e now).2
      cases hm : lookupMap s.conn_map e.addr with
      | none =>
          rw [handle_unknown now hm]
          intro tr htr
          simp at htr
          rw [htr]
          simp [connectOf]
      | some i =>
          cases htype : e.type with
          | connection_established =>
              rw [handle_est now hm htype]
              refine connectFree_append ?_ (connectFree_handlerTrace r _ e)
              intro tr htr
              simp at htr
              rw [htr]
              simp [connectOf]
          | error_event =>
              rw [handle_fail now hm (Or.inl htype)]
              refine connectFree_append ?_ (connectFree_handlerTrace r _ e)
              intro tr htr
              simp at htr
              rw [htr]
              simp [connectOf]
          | disconnect =>
              rw [handle_fail now hm (Or.inr htype)]
              refine connectFree_append ?_ (connectFree_handlerTrace r _ e)
              intro tr htr
              simp at htr
              rw [htr]
              simp [connectOf]
          | message =>
              rw [handle_msg now hm htype]
              exact connectFree_handlerTrace r _ e
  | workerOp now cr r1 r2 =>
      show connectFree r (ConnectionManager.worker_step s now cr r1 r2).2.1
      cases hsd : s.shutdown with
      | true =>
          rw [worker_shutdown now cr r1 r2 hsd]
          intro tr htr
          simp at htr
      | false =>
          cases ht : ConnectionManager.retry_top s with
          | none =>
              rw [worker_empty now cr r1 r2 hsd ht]
              intro tr htr
              simp at htr
          | some t =>
              cases hc : (getRec s.records t).connected with
              | true =>
                  rw [worker_discard now cr r1 r2 hsd ht hc]
                  intro tr htr
                  simp at htr
              | false =>
                  by_cases hdue : (getRec s.records t).next_retry ≤ now
                  · rw [worker_attempt now cr r1 r2 hsd ht hc hdue]
                    exact connectFree_scr _ _ _ _ _ _
                      (poisoned_top_ne hp hc)
                  · rw [worker_wait now cr r1 r2 hsd ht hc hdue]
                    intro tr htr
                    simp at htr

lemma poisoned_runOps (ops : List Op) :
    ∀ (s : ManagerState) (r : Nat), wf s → poisoned s r →
      poisoned (runOps s ops).1 r ∧ connectFree r (runOps s ops).2 := by
  induction ops with
  | nil =>
      intro s r _ hp
      exact ⟨hp, fun tr htr => by simp [runOps] at htr⟩
  | cons op ops ih =>
      intro s r hw hp
      have hw' := wf_applyOp s op hw
      have hp' := poisoned_applyOp s op r hw hp
      have hcf := connectFree_applyOp s op r hw hp
      obtain ⟨h1, h2⟩ := ih (applyOp s op).1 r hw' hp'
      refine ⟨h1, ?_⟩
      show connectFree r ((applyOp s op).2 ++ (runOps (applyOp s op).1 ops).2)
      exact connectFree_append hcf h2

lemma remove_poisons {s : ManagerState} {addr : SockAddrIn} {i : Nat}
    (cr : Int) (hw : wf s) (hm : lookupMap s.conn_map addr = some i)
    {c : ConnectionState} (hrec : lookupRec s.records i = some c)
    (hc : c.connected = false) :
    poisoned (ConnectionManager.remove s addr cr).1 i := by
  have hg : getRec s.records i = c := by simp [getRec, hrec]
  unfold ConnectionManager.remove
  rw [hm]
  simp only [hg, hc, Bool.false_eq_true, if_false]
  constructor
  · rw [lookupRec_setRec_self _ hrec]
    simp
  · intro p hp
    exact eraseMap_value_ne s.conn_map addr i hw.2.2.2 hm p hp

end InvariantLemmas

/-- C6: `remove` on a disconnected record poisons it (`connected := true`
while erasing it from the registry); a poisoned record stays poisoned under
every subsequent operation and no comm-layer connect is ever issued on its
behalf again — in particular the retry worker pops and discards a heap entry
whose record is connected, without calling `send_connect_request`. -/
theorem claim_C6 (s : ManagerState) (addr : SockAddrIn) (cr : Int) (i : Nat)
    (ops : List Op) (s' : ManagerState) (t : Nat) (now cr2 : Int)
    (r1 r2 : Nat) (c : ConnectionState)
    (hw : wf s)
    (hmap : lookupMap s.conn_map addr = some i)
    (hrec : lookupRec s.records i = some c)
    (hc : c.connected = false)
    (hsd : s'.shutdown = false)
    (htop : ConnectionManager.retry_top s' = some t)
    (hcon : (getRec s'.records t).connected = true) :
    poisoned (ConnectionManager.remove s addr cr).1 i ∧
    connectFree i
      (runOps (ConnectionManager.remove s addr cr).1 ops).2 ∧
    ConnectionManager.worker_step s' now cr2 r1 r2 =
      ({ s' with retry_queue := s'.retry_queue.erase t }, [],
       ConnectionManager.WorkerAct.discarded t) := by
  have hpois := remove_poisons cr hw hmap hrec hc
  have hw' : wf (ConnectionManager.remove s addr cr).1 :=
    wf_remove s addr cr hw
  obtain ⟨h1, h2⟩ :=
    poisoned_runOps ops (ConnectionManager.remove s addr cr).1 i hw' hpois
  exact ⟨hpois, h2, worker_discard now cr2 r1 r2 hsd htop hcon⟩

section NotifyLemmas

lemma lookupMap_eq_none_of_not_isSome {m : List (SockAddrIn × Nat)}
    {addr : SockAddrIn} (h : ¬ (lookupMap m addr).isSome = true) :
    lookupMap m addr = none := by
  cases hx : lookupMap m addr with
  | none => rfl
  | some j => rw [hx] at h; simp at h

lemma notifyAll_ne_connectTrace (r : Nat) (cs : ConnectionState) (id : Nat) :
    Trace.notifyAll r ≠ ConnectionManager.connectTrace cs id := by
  unfold ConnectionManager.connectTrace
  split <;> simp

lemma notifyMem_scr (r : Nat) (cs : ConnectionState) (id : Nat)
    (queue : List Nat) (cr now : Int) (r1 r2 : Nat) :
    notifyMem r
      (ConnectionManager.send_connect_request cs id queue cr now r1 r2).2.2 ↔
      (cr = ErrCode.COMM_ALREADY_CONNECTED ∧ r = id) := by
  by_cases hac : cr = ErrCode.COMM_ALREADY_CONNECTED
  · rw [hac, ConnectionManager.scr_already_connected]
    simp [notifyMem, notifyAll_ne_connectTrace, hac]
  · by_cases hok : cr = ErrCode.OK
    · rw [hok, ConnectionManager.scr_ok]
      simp [notifyMem, notifyAll_ne_connectTrace]
      intro he
      rw [hok] at hac
      exact absurd he hac
    · rw [ConnectionManager.scr_fail cs id queue cr now r1 r2 hok hac]
      simp [notifyMem, notifyAll_ne_connectTrace, hac]

lemma exists_lookupRec_of_isSome {recs : List (Nat × ConnectionState)}
    {i : Nat} (h : (lookupRec recs i).isSome = true) :
    ∃ c, lookupRec recs i = some c := by
  cases hx : lookupRec recs i with
  | none => rw [hx] at h; simp at h
  | some c => exact ⟨c, rfl⟩

lemma notify_add (s : ManagerState) (addr la : SockAddrIn) (t : Nat)
    (svc : Option String) (h : Option Nat) (now cr : Int) (r1 r2 : Nat)
    (r : Nat) :
    (notifyMem r
        (ConnectionManager.add_with_local s addr la t svc h now cr r1 r2).2 ↔
      (lookupMap s.conn_map addr = none ∧ r = s.next_id ∧
        cr = ErrCode.COMM_ALREADY_CONNECTED)) ∧
    (notifyMem r
        (ConnectionManager.add_with_local s addr la t svc h now cr r1 r2).2 →
      recConnected
        (ConnectionManager.add_with_local s addr la t svc h now cr r1 r2).1 r
        = true) := by
  by_cases hl : (lookupMap s.conn_map addr).isSome = true
  · rw [add_dup la t svc h now cr r1 r2 hl]
    refine ⟨⟨fun htr => absurd htr (by simp [notifyMem]), ?_⟩,
      fun htr => absurd htr (by simp [notifyMem])⟩
    rintro ⟨h1, -, -⟩
    rw [h1] at hl
    simp at hl
  · have hl' := lookupMap_eq_none_of_not_isSome hl
    rw [add_fresh la t svc h now cr r1 r2 hl']
    constructor
    · rw [notifyMem_scr]
      constructor
      · rintro ⟨hac, hr⟩
        exact ⟨hl', hr, hac⟩
      · rintro ⟨-, hr, hac⟩
        exact ⟨hac, hr⟩
    · intro htr
      rw [notifyMem_scr] at htr
      obtain ⟨hac, hr⟩ := htr
      rw [hr, hac]
      simp [recConnected, lookupRec,
        ConnectionManager.scr_already_connected]

lemma notify_remove (s : ManagerState) (addr : SockAddrIn) (cr : Int)
    (r : Nat) : ¬ notifyMem r (ConnectionManager.remove s addr cr).2.2 := by
  unfold ConnectionManager.remove
  cases hm : lookupMap s.conn_map addr with
  | none => simp [notifyMem]
  | some i =>
      by_cases hc : (getRec s.records i).connected = true
      · simp only [hc, if_true]
        simp [notifyMem]
      · simp only [hc, Bool.false_eq_true, if_false]
        simp [notifyMem]

lemma notifyMem_handlerTrace (r : Nat) (h : Option Nat) (e : Event) :
    ¬ notifyMem r (handlerTrace h e) := by
  cases h <;> simp [handlerTrace, notifyMem]

lemma notify_handle (s : ManagerState) (e : Event) (now : Int) (r : Nat)
    (hw : wf s) :
    (notifyMem r (ConnectionManager.handle s e now).2 ↔
      (lookupMap s.conn_map e.addr = some r ∧
        e.type = EventType.connection_established)) ∧
    (notifyMem r (ConnectionManager.handle s e now).2 →
      recConnected (ConnectionManager.handle s e now).1 r = true) := by
  cases hm : lookupMap s.conn_map e.addr with
  | none =>
      rw [handle_unknown now hm]
      refine ⟨⟨fun htr => absurd htr (by simp [notifyMem]), ?_⟩,
        fun htr => absurd htr (by simp [notifyMem])⟩
      rintro ⟨h1, -⟩
      exact absurd h1 (by simp)
  | some i =>
      have hi : (lookupRec s.records i).isSome = true :=
        hw.2.1 _ (lookupMap_mem hm)
      obtain ⟨c, hlc⟩ := exists_lookupRec_of_isSome hi
      cases htype : e.type with
      | connection_established =>
          rw [handle_est now hm htype]
          have hri : notifyMem r
              ([Trace.notifyAll i] ++
                handlerTrace (getRec s.records i).handler e) → r = i := by
            intro htr
            rcases List.mem_append.mp htr with hh | hh
            · simp at hh
              exact hh
            · exact absurd hh (notifyMem_handlerTrace r _ e)
          constructor
          · constructor
            · intro htr
              have hr := hri htr
              rw [hr]
              exact ⟨rfl, rfl⟩
            · rintro ⟨h1, -⟩
              have hir : i = r := by injection h1
              show Trace.notifyAll r ∈ _
              rw [← hir]
              exact List.mem_append_left _ (List.mem_cons_self _ _)
          · intro htr
            have hr := hri htr
            have hset := lookupRec_setRec_self
              (connectedRecord (getRec s.records i)) hlc
            unfold recConnected
            rw [hr, hset]
            rfl
      | error_event =>
          rw [handle_fail now hm (Or.inl htype)]
          have hnm : ¬ notifyMem r
              ([Trace.notifyRetry] ++
                handlerTrace (getRec s.records i).handler e) := by
            intro htr
            rcases List.mem_append.mp htr with hh | hh
            · simp at hh
            · exact absurd hh (notifyMem_handlerTrace r _ e)
          refine ⟨⟨fun htr => absurd htr hnm, ?_⟩,
            fun htr => absurd htr hnm⟩
          rintro ⟨-, ht2⟩
          exact absurd ht2 (by simp)
      | disconnect =>
          rw [handle_fail now hm (Or.inr htype)]
          have hnm : ¬ notifyMem r
              ([Trace.notifyRetry] ++
                handlerTrace (getRec s.records i).handler e) := by
            intro htr
            rcases List.mem_append.mp htr with hh | hh
            · simp at hh
            · exact absurd hh (notifyMem_handlerTrace r _ e)
          refine ⟨⟨fun htr => absurd htr hnm, ?_⟩,
            fun htr => absurd htr hnm⟩
          rintro ⟨-, ht2⟩
          exact absurd ht2 (by simp)
      | message =>
          rw [handle_msg now hm htype]
          refine ⟨⟨fun htr => absurd htr (notifyMem_handlerTrace r _ e), ?_⟩,
            fun htr => absurd htr (notifyMem_handlerTrace r _ e)⟩
          rintro ⟨-, ht2⟩
          exact absurd ht2 (by simp)

lemma notify_worker (s : ManagerState) (now cr : Int) (r1 r2 : Nat)
    (r : Nat) (hw : wf s) :
    (notifyMem r (ConnectionManager.worker_step s now cr r1 r2).2.1 ↔
      (s.shutdown = false ∧ ConnectionManager.retry_top s = some r ∧
        (getRec s.records r).connected = false ∧
        (getRec s.records r).next_retry ≤ now ∧
        cr = ErrCode.COMM_ALREADY_CONNECTED)) ∧
    (notifyMem r (ConnectionManager.worker_step s now cr r1 r2).2.1 →
      recConnected (ConnectionManager.worker_step s now cr r1 r2).1 r = true)
    := by
  cases hsd : s.shutdown with
  | true =>
      rw [worker_shutdown now cr r1 r2 hsd]
      refine ⟨⟨fun htr => absurd htr (by simp [notifyMem]), ?_⟩,
        fun htr => absurd htr (by simp [notifyMem])⟩
      rintro ⟨h1, -⟩
      exact absurd h1 (by simp)
  | false =>
      cases ht : ConnectionManager.retry_top s with
      | none =>
          rw [worker_empty now cr r1 r2 hsd ht]
          refine ⟨⟨fun htr => absurd htr (by simp [notifyMem]), ?_⟩,
            fun htr => absurd htr (by simp [notifyMem])⟩
          rintro ⟨-, h2, -⟩
          exact absurd h2 (by simp)
      | some t =>
          cases hc : (getRec s.records t).connected with
          | true =>
              rw [worker_discard now cr r1 r2 hsd ht hc]
              refine ⟨⟨fun htr => absurd htr (by simp [notifyMem]), ?_⟩,
                fun htr => absurd htr (by simp [notifyMem])⟩
              rintro ⟨-, h2, h3, -⟩
              have htr2 : t = r := by injection h2
              rw [← htr2] at h3
              rw [hc] at h3
              exact absurd h3 (by simp)
          | false =>
              by_cases hdue : (getRec s.records t).next_retry ≤ now
              · rw [worker_attempt now cr r1 r2 hsd ht hc hdue]
                have hti : (lookupRec s.records t).isSome = true :=
                  hw.2.2.1 t (retry_top_mem ht)
                obtain ⟨c, hlc⟩ := exists_lookupRec_of_isSome hti
                constructor
                · rw [notifyMem_scr]
                  constructor
                  · rintro ⟨hac, hr⟩
                    refine ⟨rfl, ?_, ?_, ?_, hac⟩
                    · rw [hr]
                    · rw [hr]; exact hc
                    · rw [hr]; exact hdue
                  · rintro ⟨-, h2, -, -, hac⟩
                    have htr2 : t = r := by injection h2
                    exact ⟨hac, htr2.symm⟩
                · intro htr
                  rw [notifyMem_scr] at htr
                  obtain ⟨hac, hr⟩ := htr
                  have hset := lookupRec_setRec_self
                    ((ConnectionManager.send_connect_request
                      (getRec s.records t) t (s.retry_queue.erase t) cr now
                      r1 r2).1) hlc
                  unfold recConnected
                  rw [hr, hset, hac, ConnectionManager.scr_already_connected]
              · rw [worker_wait now cr r1 r2 hsd ht hc hdue]
                refine ⟨⟨fun htr => absurd htr (by simp [notifyMem]), ?_⟩,
                  fun htr => absurd htr (by simp [notifyMem])⟩
                rintro ⟨-, h2, -, h4, -⟩
                have htr2 : t = r := by injection h2
                rw [← htr2] at h4
                exact absurd h4 hdue

end NotifyLemmas

/-- C4: a record's `connected` flag is raised together with a `notify_all` of
its condition exactly when a `CONNECTION_ESTABLISHED` event for its address
is handled or a connect issued on its behalf (by `add` or the retry worker)
returns `COMM_ALREADY_CONNECTED`; whenever the notification is emitted, the
record's `connected` flag is true afterwards. -/
theorem claim_C4 (s : ManagerState) (op : Op) (r : Nat) (hw : wf s) :
    (notifyMem r (applyOp s op).2 ↔ estNotify s op r) ∧
    (notifyMem r (applyOp s op).2 →
      recConnected (applyOp s op).1 r = true) := by
  cases op with
  | addOp addr t svc h now cr r1 r2 =>
      exact notify_add s addr zeroAddr t svc h now cr r1 r2 r
  | addLocalOp addr la t svc h now cr r1 r2 =>
      exact notify_add s addr la t svc h now cr r1 r2 r
  | removeOp addr cr =>
      refine ⟨⟨fun htr => absurd htr (notify_remove s addr cr r), ?_⟩,
        fun htr => absurd htr (notify_remove s addr cr r)⟩
      intro hfalse
      exact absurd hfalse (by simp [estNotify])
  | handleOp e now => exact notify_handle s e now r hw
  | workerOp now cr r1 r2 => exact notify_worker s now cr r1 r2 r hw

/-- C4 witness: registering a fresh endpoint whose connect reports
already-connected. -/
theorem claim_C4_witness :
    (notifyMem 0 (applyOp sEmpty
        (Op.addOp addrEx 5000 none none 0 ErrCode.COMM_ALREADY_CONNECTED 0
          0)).2 ↔
      estNotify sEmpty
        (Op.addOp addrEx 5000 none none 0 ErrCode.COMM_ALREADY_CONNECTED 0
          0) 0) ∧
    (notifyMem 0 (applyOp sEmpty
        (Op.addOp addrEx 5000 none none 0 ErrCode.COMM_ALREADY_CONNECTED 0
          0)).2 →
      recConnected (applyOp sEmpty
        (Op.addOp addrEx 5000 none none 0 ErrCode.COMM_ALREADY_CONNECTED 0
          0)).1 0 = true) :=
  claim_C4 sEmpty
    (Op.addOp addrEx 5000 none none 0 ErrCode.COMM_ALREADY_CONNECTED 0 0) 0
    (by decide)

/-- C6 witness: removing the pending record, then one worker step over the
resulting poisoned heap entry. -/
theorem claim_C6_witness :
    poisoned (ConnectionManager.remove sQueue addrEx 3).1 0 ∧
    connectFree 0
      (runOps (ConnectionManager.remove sQueue addrEx 3).1
        [Op.workerOp 99 1 0 0]).2 ∧
    ConnectionManager.worker_step sPoisoned 50 1 0 0 =
      ({ sPoisoned with retry_queue := sPoisoned.retry_queue.erase 0 }, [],
       ConnectionManager.WorkerAct.discarded 0) :=
  claim_C6 sQueue addrEx 3 0 [Op.workerOp 99 1 0 0] sPoisoned 0 50 1 0 0
    csEx (by decide) (by decide) (by decide) (by decide) (by decide)
    (by decide) (by decide)

end ConnMgr
